import Mathlib

/-!
Verification of d4l3k/go-lbsql (`lbsql.go`), a load-balancing
`driver.Connector` for Go's `database/sql`.

The embedding models:
- the registry: `Balancer` holds `connectors`, a Go `map[string]driver.Connector`,
  modelled as an association list with unique keys (Go maps are unordered, so
  the list order carries no meaning; map iteration randomness is modelled by a
  numeric choice parameter `k`);
- a Go interface value of type `driver.Connector` may be `nil`, so registry
  values are `Option F` where `F` abstracts a concrete (non-nil) connector;
- errors: `DErr` with the distinguished `ErrNoConnectors` value;
- `Connect`: the `backoff.Retry` loop over the operation closure that snapshots
  one connector via `randomConnector` and calls its `Connect`.

Factory behaviour, context cancellation and map-iteration randomness for one
`Connect` call are packaged in `ConnectEnv`; a Go factory call returns a pair
(conn, err), each component independently nilable.
-/

set_option autoImplicit false

namespace Lbsql

/-- Go `error` values observed by the balancer.  `errNoConnectors` models the
package-level `ErrNoConnectors`; `other` models every other distinct error
value (factory errors, context errors). -/
inductive DErr where
  | errNoConnectors
  | other (msg : String)
  deriving DecidableEq, Repr

/-- The balancer: `mu.connectors map[string]driver.Connector`.  A value `none`
models a nil `driver.Connector` interface value (the map stores it happily). -/
structure Balancer (F : Type) where
  connectors : List (String × Option F)
  deriving DecidableEq, Repr

/-- `NewBalancer` returns a Balancer with an empty connector map. -/
def NewBalancer {F : Type} : Balancer F := ⟨[]⟩

/-- `Add`: Go map assignment `b.mu.connectors[name] = c` — inserts or replaces
the entry for `name`.  On the association list this is: drop any entry keyed
`name`, add the new pair (position is immaterial: Go maps are unordered). -/
def Balancer.Add {F : Type} (b : Balancer F) (name : String) (c : Option F) :
    Balancer F :=
  ⟨(name, c) :: b.connectors.filter (fun p => !(p.1 == name))⟩

/-- `Remove`: Go `delete(b.mu.connectors, name)` — drops the entry for `name`
if present, no-op otherwise. -/
def Balancer.Remove {F : Type} (b : Balancer F) (name : String) : Balancer F :=
  ⟨b.connectors.filter (fun p => !(p.1 == name))⟩

/-- `ConnectorNames`: collects the keys of the connector map (order
unspecified in Go; here, list order). -/
def Balancer.ConnectorNames {F : Type} (b : Balancer F) : List String :=
  b.connectors.map Prod.fst

/-- Whether the map has an entry keyed `name` (Go: `_, ok := m[name]`). -/
def Balancer.hasName {F : Type} (b : Balancer F) (name : String) : Bool :=
  b.connectors.any (fun p => p.1 == name)

/-- Go map lookup `m[name]`: the stored connector value for `name`, if the
entry is present (the stored value may itself be the nil connector `none`). -/
def Balancer.lookup {F : Type} (b : Balancer F) (name : String) :
    Option (Option F) :=
  (b.connectors.find? (fun p => p.1 == name)).map Prod.snd

/-- `randomConnector`: `for _, c := range b.mu.connectors { return c, nil };
return nil, ErrNoConnectors`.  Go map iteration starts at a random entry; the
parameter `k` picks which.  On the empty map it returns `ErrNoConnectors`. -/
def Balancer.randomConnector {F : Type} (b : Balancer F) (k : Nat) :
    Except DErr (Option F) :=
  match b.connectors.get? (k % b.connectors.length) with
  | some p => .ok p.2
  | none => .error .errNoConnectors

/-- Environment of a single `Connect` call: per-attempt map-iteration
randomness (`pick`), the context's cancellation state as observed between
attempt `i` and attempt `i+1` (`canceled`), the error value that `ctx.Err()`
yields once canceled (`cancelErr`), and the behaviour of each concrete factory
at each attempt (`connect`, returning a Go pair (conn, err), each component
independently nilable). -/
structure ConnectEnv (F C : Type) where
  pick : Nat → Nat
  canceled : Nat → Bool
  cancelErr : DErr
  connect : Nat → F → Option C × Option DErr

/-- Outcome of one call of the retry operation closure. -/
inductive AttemptOut (C : Type) where
  | permanentErr (e : DErr)
  | panics
  | okConn (conn : Option C)
  | failErr (e : DErr)
  deriving DecidableEq, Repr

/-- Classify a Go factory-call result pair (conn, err): err nil is success
(with whatever conn was returned, possibly nil), err non-nil is failure. -/
def attemptResult {C : Type} (r : Option C × Option DErr) : AttemptOut C :=
  match r with
  | (conn, none) => .okConn conn
  | (_, some e) => .failErr e

/-- One call of the operation closure passed to `backoff.Retry`:
`c, err := b.randomConnector()`; an empty map is a `backoff.Permanent` error;
a nil connector panics when its `Connect` method is invoked (Go: method call
on a nil interface value); otherwise the factory runs. -/
def Balancer.attempt {F C : Type} (b : Balancer F) (env : ConnectEnv F C)
    (i : Nat) : AttemptOut C :=
  match b.randomConnector (env.pick i) with
  | .error e => .permanentErr e
  | .ok none => .panics
  | .ok (some f) => attemptResult (env.connect i f)

/-- Terminal result of `Connect`: `ok conn` is the success path (err nil, conn
exactly as the factory returned it, possibly nil); `fail e` is the error path
(conn nil, err = e ≠ nil); `panics` is a runtime panic (nil connector
invoked). -/
inductive GoResult (C : Type) where
  | ok (conn : Option C)
  | fail (e : DErr)
  | panics
  deriving DecidableEq, Repr

/-- Modelled from the spec: the retry protocol of `backoff.Retry` with
`backoff.WithContext` (the cenkalti/backoff dependency is not under src/), per
spec §4.2 steps 4–8: run the operation; success returns at once; a
`Permanent` error returns at once; otherwise, if the cancellation token has
fired (during the wait or checked at loop entry) the context's error is
surfaced verbatim, taking precedence over any pending retry; if the schedule's
elapsed-time budget is exhausted (`fuel = 0`, NextBackOff = Stop) the most
recent operation error is returned; otherwise retry.  `fuel` is the number of
backoff waits the schedule still allows (MaxElapsedTime makes it finite);
`i` counts attempts. -/
def Balancer.retryLoop {F C : Type} (b : Balancer F) (env : ConnectEnv F C) :
    Nat → Nat → GoResult C
  | fuel, i =>
    match b.attempt env i with
    | .permanentErr e => .fail e
    | .panics => .panics
    | .okConn conn => .ok conn
    | .failErr e =>
      if env.canceled i then .fail env.cancelErr
      else
        match fuel with
        | 0 => .fail e
        | fuel + 1 => b.retryLoop env fuel (i + 1)

/-- `Connect`: runs the backoff retry loop from the first attempt. -/
def Balancer.Connect {F C : Type} (b : Balancer F) (env : ConnectEnv F C)
    (fuel : Nat) : GoResult C :=
  b.retryLoop env fuel 0

/-- Registry mutations, for reasoning about sequences of operations. -/
inductive RegOp (F : Type) where
  | add (name : String) (c : Option F)
  | remove (name : String)

/-- Apply one registry operation. -/
def Balancer.applyOp {F : Type} (b : Balancer F) : RegOp F → Balancer F
  | .add n c => b.Add n c
  | .remove n => b.Remove n

/-- Apply a sequence of registry operations, oldest first. -/
def Balancer.applyOps {F : Type} (b : Balancer F) (ops : List (RegOp F)) :
    Balancer F :=
  ops.foldl Balancer.applyOp b

/-- Whether, after the operations `ops` run starting from membership state
`init` for the name `n`, the name `n` has been added and not subsequently
removed. -/
def presentAfter {F : Type} (init : Bool) (ops : List (RegOp F)) (n : String) :
    Bool :=
  ops.foldl
    (fun s op =>
      match op with
      | .add m _ => if m = n then true else s
      | .remove m => if m = n then false else s)
    init

section RegistryLemmas

variable {F : Type}

/-- Filtering out the entries keyed `m` does not change how often a different
name `n` occurs among the keys. -/
lemma count_names_filter_ne {m n : String} (h : m ≠ n)
    (l : List (String × Option F)) :
    ((l.filter (fun p => !(p.1 == m))).map Prod.fst).count n
      = (l.map Prod.fst).count n := by
  induction l with
  | nil => rfl
  | cons p l ih =>
    by_cases hp : p.1 = m
    · simp [List.filter_cons, hp, List.count_cons, h, ih]
    · simp [List.filter_cons, hp, List.count_cons, ih]

/-- After filtering out the entries keyed `n`, the name `n` no longer occurs
among the keys. -/
lemma count_names_filter_self (l : List (String × Option F)) (n : String) :
    ((l.filter (fun p => !(p.1 == n))).map Prod.fst).count n = 0 := by
  rw [List.count_eq_zero]
  intro hmem
  obtain ⟨p, hp, hpn⟩ := List.mem_map.mp hmem
  have hfil := List.of_mem_filter hp
  simp [hpn] at hfil

/-- Key multiplicity after `Add`: the added name occurs exactly once, every
other name exactly as often as before. -/
lemma count_names_Add (b : Balancer F) (m n : String) (c : Option F) :
    ((b.Add m c).ConnectorNames).count n
      = if m = n then 1 else (b.ConnectorNames).count n := by
  by_cases hmn : m = n
  · subst hmn
    simp [Balancer.Add, Balancer.ConnectorNames, List.count_cons,
      count_names_filter_self]
  · simp [Balancer.Add, Balancer.ConnectorNames, List.count_cons, hmn,
      count_names_filter_ne hmn]

/-- Key multiplicity after `Remove`: the removed name is gone, every other
name occurs exactly as often as before. -/
lemma count_names_Remove (b : Balancer F) (m n : String) :
    ((b.Remove m).ConnectorNames).count n
      = if m = n then 0 else (b.ConnectorNames).count n := by
  by_cases hmn : m = n
  · subst hmn
    simp [Balancer.Remove, Balancer.ConnectorNames, count_names_filter_self]
  · simp [Balancer.Remove, Balancer.ConnectorNames, hmn,
      count_names_filter_ne hmn]

/-- Entries keyed `m` do not decide whether a different name `n` is present
(conjunction form, as left after pushing `any` through `filter`). -/
lemma any_key_and_ne {m n : String} (h : m ≠ n)
    (l : List (String × Option F)) :
    (l.any fun p => ((!(p.1 == m)) && (p.1 == n))) = l.any (fun p => p.1 == n) := by
  induction l with
  | nil => rfl
  | cons p l ih =>
    by_cases hp : p.1 = n
    · simp [List.any_cons, hp, Ne.symm h]
    · have h2 : (p.1 == n) = false := by simp [hp]
      simp [List.any_cons, h2, ih]

/-- No entry can be keyed `n` and at the same time not keyed `n`. -/
lemma any_key_and_self (l : List (String × Option F)) (n : String) :
    (l.any fun p => ((!(p.1 == n)) && (p.1 == n))) = false := by
  induction l with
  | nil => rfl
  | cons p l ih =>
    simp [List.any_cons, ih]

/-- Presence after `Add`. -/
lemma hasName_Add (b : Balancer F) (m n : String) (c : Option F) :
    (b.Add m c).hasName n = if m = n then true else b.hasName n := by
  by_cases hmn : m = n
  · subst hmn
    simp [Balancer.Add, Balancer.hasName]
  · simp only [Balancer.Add, Balancer.hasName, List.any_cons, List.any_filter,
      if_neg hmn]
    have h1 : (m == n) = false := by simp [hmn]
    rw [h1, Bool.false_or]
    exact any_key_and_ne hmn b.connectors

/-- Presence after `Remove`. -/
lemma hasName_Remove (b : Balancer F) (m n : String) :
    (b.Remove m).hasName n = if m = n then false else b.hasName n := by
  by_cases hmn : m = n
  · subst hmn
    simp only [Balancer.Remove, Balancer.hasName, List.any_filter, if_pos rfl]
    exact any_key_and_self b.connectors _
  · simp only [Balancer.Remove, Balancer.hasName, List.any_filter, if_neg hmn]
    exact any_key_and_ne hmn b.connectors

/-- Filtering out the entries keyed `n` does not change the first entry found
for a different name `m`. -/
lemma find_key_filter_ne {m n : String} (h : m ≠ n)
    (l : List (String × Option F)) :
    (l.filter (fun p => !(p.1 == n))).find? (fun p => p.1 == m)
      = l.find? (fun p => p.1 == m) := by
  induction l with
  | nil => rfl
  | cons p l ih =>
    by_cases hp : p.1 = n
    · simp [List.filter_cons, hp, List.find?_cons, Ne.symm h, ih]
    · by_cases hm : p.1 = m
      · simp [List.filter_cons, hp, List.find?_cons, hm, h]
      · simp [List.filter_cons, hp, List.find?_cons, hm, ih]

/-- The per-name membership invariant (each present name occurs exactly once
among the keys) transports along any operation sequence, and the final
multiplicity is decided by the added-and-not-subsequently-removed fold. -/
lemma count_applyOps (n : String) (ops : List (RegOp F)) :
    ∀ b : Balancer F,
      (b.ConnectorNames).count n = (if b.hasName n then 1 else 0) →
      ((b.applyOps ops).ConnectorNames).count n
        = (if presentAfter (b.hasName n) ops n then 1 else 0) := by
  induction ops with
  | nil =>
    intro b hb
    simpa [Balancer.applyOps, presentAfter] using hb
  | cons op ops ih =>
    intro b hb
    cases op with
    | add m c =>
      have hstep := ih (b.Add m c)
        (by rw [count_names_Add, hasName_Add]; by_cases hmn : m = n <;> simp [hmn, hb])
      rw [hasName_Add] at hstep
      simpa [Balancer.applyOps, Balancer.applyOp, presentAfter, List.foldl_cons]
        using hstep
    | remove m =>
      have hstep := ih (b.Remove m)
        (by rw [count_names_Remove, hasName_Remove]; by_cases hmn : m = n <;> simp [hmn, hb])
      rw [hasName_Remove] at hstep
      simpa [Balancer.applyOps, Balancer.applyOp, presentAfter, List.foldl_cons]
        using hstep

end RegistryLemmas

section ConnectLemmas

variable {F C : Type}

/-- One-step unfolding of the retry loop. -/
lemma retryLoop_eq (b : Balancer F) (env : ConnectEnv F C) (fuel i : Nat) :
    b.retryLoop env fuel i =
      match b.attempt env i with
      | .permanentErr e => .fail e
      | .panics => .panics
      | .okConn conn => .ok conn
      | .failErr e =>
        if env.canceled i then .fail env.cancelErr
        else
          match fuel with
          | 0 => .fail e
          | fuel + 1 => b.retryLoop env fuel (i + 1) := by
  rw [Balancer.retryLoop]

/-- On a single-entry registry, the selection step always yields that
entry's connector. -/
lemma randomConnector_singleton (n : String) (c : Option F) (k : Nat) :
    (Balancer.mk [(n, c)]).randomConnector k = .ok c := by
  simp [Balancer.randomConnector, Nat.mod_one]

/-- On a single-entry registry holding the non-nil connector `f`, each
attempt is exactly one call of `f`. -/
lemma attempt_singleton (n : String) (f : F) (env : ConnectEnv F C) (i : Nat) :
    (Balancer.mk [(n, some f)]).attempt env i
      = attemptResult (env.connect i f) := by
  simp [Balancer.attempt, randomConnector_singleton]

/-- If the sole connector errors on every attempt and the context never
fires, the retry loop exhausts its budget and reports the error of the last
attempt made. -/
lemma retryLoop_sole_always_errors (n : String) (f : F)
    (env : ConnectEnv F C) (e : Nat → DErr)
    (hc : ∀ i, env.canceled i = false)
    (hf : ∀ i, (env.connect i f).2 = some (e i)) :
    ∀ fuel i, (Balancer.mk [(n, some f)]).retryLoop env fuel i
      = .fail (e (i + fuel)) := by
  intro fuel
  induction fuel with
  | zero =>
    intro i
    rw [retryLoop_eq, attempt_singleton]
    have h := hf i
    rcases henv : env.connect i f with ⟨c1, c2⟩
    rw [henv] at h
    subst h
    simp [attemptResult, hc i]
  | succ fuel ih =>
    intro i
    rw [retryLoop_eq, attempt_singleton]
    have h := hf i
    rcases henv : env.connect i f with ⟨c1, c2⟩
    rw [henv] at h
    subst h
    have harith : i + 1 + fuel = i + (fuel + 1) := by omega
    simp [attemptResult, hc i, ih (i + 1), harith]

/-- Terminal-path analysis of the retry loop: it ends in an error, in a panic
caused by a selected nil connector, or in success carrying exactly the pair
componentwise returned by some successful factory call. -/
lemma retryLoop_terminal (b : Balancer F) (env : ConnectEnv F C) :
    ∀ fuel i,
      (∃ e, b.retryLoop env fuel i = .fail e) ∨
      (b.retryLoop env fuel i = .panics ∧
        ∃ j, b.randomConnector (env.pick j) = .ok none) ∨
      (∃ j f conn, b.randomConnector (env.pick j) = .ok (some f) ∧
        env.connect j f = (conn, none) ∧
        b.retryLoop env fuel i = .ok conn) := by
  intro fuel
  induction fuel with
  | zero =>
    intro i
    rw [retryLoop_eq]
    rcases hr : b.randomConnector (env.pick i) with e | oc
    · exact Or.inl ⟨e, by simp [Balancer.attempt, hr]⟩
    · rcases oc with _ | f
      · exact Or.inr (Or.inl ⟨by simp [Balancer.attempt, hr], i, hr⟩)
      · rcases henv : env.connect i f with ⟨conn, err⟩
        rcases err with _ | e
        · exact Or.inr (Or.inr ⟨i, f, conn, hr, henv,
            by simp [Balancer.attempt, hr, henv, attemptResult]⟩)
        · by_cases hcan : env.canceled i
          · exact Or.inl ⟨env.cancelErr,
              by simp [Balancer.attempt, hr, henv, attemptResult, hcan]⟩
          · exact Or.inl ⟨e,
              by simp [Balancer.attempt, hr, henv, attemptResult, hcan]⟩
  | succ fuel ih =>
    intro i
    rw [retryLoop_eq]
    rcases hr : b.randomConnector (env.pick i) with e | oc
    · exact Or.inl ⟨e, by simp [Balancer.attempt, hr]⟩
    · rcases oc with _ | f
      · exact Or.inr (Or.inl ⟨by simp [Balancer.attempt, hr], i, hr⟩)
      · rcases henv : env.connect i f with ⟨conn, err⟩
        rcases err with _ | e
        · exact Or.inr (Or.inr ⟨i, f, conn, hr, henv,
            by simp [Balancer.attempt, hr, henv, attemptResult]⟩)
        · by_cases hcan : env.canceled i
          · exact Or.inl ⟨env.cancelErr,
              by simp [Balancer.attempt, hr, henv, attemptResult, hcan]⟩
          · rcases ih (i + 1) with ⟨e2, h2⟩ | ⟨h2, j, hj⟩ | ⟨j, f2, conn2, hj, hc2, h2⟩
            · exact Or.inl ⟨e2,
                by simp [Balancer.attempt, hr, henv, attemptResult, hcan, h2]⟩
            · exact Or.inr (Or.inl ⟨by
                simp [Balancer.attempt, hr, henv, attemptResult, hcan, h2], j, hj⟩)
            · exact Or.inr (Or.inr ⟨j, f2, conn2, hj, hc2,
                by simp [Balancer.attempt, hr, henv, attemptResult, hcan, h2]⟩)

end ConnectLemmas

section WitnessData

/-- A concrete connect environment: never canceled, zero pick, a factory that
succeeds immediately with a connection. -/
def envOkW : ConnectEnv Unit Unit :=
  { pick := fun _ => 0
    canceled := fun _ => false
    cancelErr := .other "context canceled"
    connect := fun _ _ => (some (), none) }

/-- A concrete connect environment: never canceled, a factory that always
fails with the same error. -/
def envErrW : ConnectEnv Unit Unit :=
  { pick := fun _ => 0
    canceled := fun _ => false
    cancelErr := .other "context canceled"
    connect := fun _ _ => (none, some (.other "connection refused")) }

/-- A concrete connect environment whose context has fired before the call,
with a factory that nevertheless succeeds. -/
def envPreCanceledOk : ConnectEnv Unit Unit :=
  { pick := fun _ => 0
    canceled := fun _ => true
    cancelErr := .other "context canceled"
    connect := fun _ _ => (some (), none) }

/-- A concrete connect environment whose context has fired before the call,
with a factory that fails. -/
def envPreCanceledErr : ConnectEnv Unit Unit :=
  { pick := fun _ => 0
    canceled := fun _ => true
    cancelErr := .other "context canceled"
    connect := fun _ _ => (none, some (.other "connection refused")) }

/-- A concrete connect environment: never canceled, a factory that returns
the Go pair (nil, nil): no error and no connection. -/
def envNilNil : ConnectEnv Unit Unit :=
  { pick := fun _ => 0
    canceled := fun _ => false
    cancelErr := .other "context canceled"
    connect := fun _ _ => (none, none) }

end WitnessData

section Claims

variable {F C : Type}

/-- Claim C1: for every balancer whose registry is empty at the start of a
connection attempt, Connect fails with ErrNoConnectors immediately and
permanently (for every backoff budget, i.e. non-retryable), regardless of the
cancellation token's state (for every environment). -/
theorem Connect_empty_fails_noConnectors (b : Balancer F) (env : ConnectEnv F C)
    (fuel : Nat) (h : b.connectors = []) :
    b.Connect env fuel = .fail .errNoConnectors := by
  have ha : b.attempt env 0 = .permanentErr .errNoConnectors := by
    simp [Balancer.attempt, Balancer.randomConnector, h]
  rw [Balancer.Connect, retryLoop_eq, ha]

/-- Witness for C1: the freshly constructed balancer, with a pre-canceled
context and no backoff budget. -/
theorem Connect_empty_fails_noConnectors_witness :
    (NewBalancer (F := Unit)).Connect envPreCanceledOk 0
      = .fail .errNoConnectors :=
  Connect_empty_fails_noConnectors NewBalancer envPreCanceledOk 0 rfl

/-- Claim C2: if the retry budget is exhausted without any factory succeeding
(the sole registered factory errors on every attempt, and the context never
fires), Connect terminates and returns the most recent factory error — the
error of the final attempt — not a synthetic timeout error. -/
theorem Connect_exhausted_returns_last_factory_error (n : String) (f : F)
    (env : ConnectEnv F C) (e : Nat → DErr) (fuel : Nat)
    (hc : ∀ i, env.canceled i = false)
    (hf : ∀ i, (env.connect i f).2 = some (e i)) :
    (Balancer.mk [(n, some f)]).Connect env fuel = .fail (e fuel) := by
  have h := retryLoop_sole_always_errors n f env e hc hf fuel 0
  simpa [Balancer.Connect] using h

/-- Witness for C2: a sole always-failing factory and a budget of three
retries; Connect returns the factory's error. -/
theorem Connect_exhausted_returns_last_factory_error_witness :
    (Balancer.mk [("err", some ())]).Connect envErrW 3
      = .fail (.other "connection refused") :=
  Connect_exhausted_returns_last_factory_error "err" () envErrW
    (fun _ => .other "connection refused") 3 (fun _ => rfl) (fun _ => rfl)

/-- Counterexample to claim C3: with the cancellation token already fired
before Connect is called and a single registered factory that succeeds,
Connect still invokes the factory (the retry operation runs before any
cancellation check) and returns its connection — not the cancellation's
error. -/
theorem Connect_precanceled_cex :
    (Balancer.mk [("foo", some ())]).Connect envPreCanceledOk 0 = .ok (some ())
      ∧ (Balancer.mk [("foo", some ())]).Connect envPreCanceledOk 0
        ≠ .fail envPreCanceledOk.cancelErr := by
  have h1 : (Balancer.mk [("foo", some ())]).Connect envPreCanceledOk 0
      = .ok (some ()) := by
    rw [Balancer.Connect, retryLoop_eq, attempt_singleton]
    rfl
  refine ⟨h1, ?_⟩
  rw [h1]
  intro hcontra
  simp at hcontra

/-- Claim C3 as amended: if the cancellation token has already fired before
Connect is called, one factory attempt is still made; provided that first
attempt does not succeed, Connect returns the cancellation's error verbatim
(the environment's `cancelErr` value itself) and performs no further
retries (the result does not depend on the budget or on later attempts). -/
theorem Connect_precanceled_first_failure_returns_cancel_error (n : String)
    (f : F) (env : ConnectEnv F C) (fuel : Nat) (e0 : DErr)
    (hcan : env.canceled 0 = true)
    (hf : (env.connect 0 f).2 = some e0) :
    (Balancer.mk [(n, some f)]).Connect env fuel = .fail env.cancelErr := by
  rw [Balancer.Connect, retryLoop_eq, attempt_singleton]
  rcases henv : env.connect 0 f with ⟨c1, c2⟩
  rw [henv] at hf
  subst hf
  simp [attemptResult, hcan]

/-- Witness for amended C3: pre-canceled context, failing factory, budget of
five retries; Connect returns the context's error verbatim. -/
theorem Connect_precanceled_first_failure_returns_cancel_error_witness :
    (Balancer.mk [("foo", some ())]).Connect envPreCanceledErr 5
      = .fail (.other "context canceled") :=
  Connect_precanceled_first_failure_returns_cancel_error "foo" ()
    envPreCanceledErr 5 (.other "connection refused") rfl rfl

/-- Claim C4: for every registry containing exactly one entry, the selection
step (`randomConnector`) picks that entry's connector for every value of the
map-iteration randomness, and consequently every attempt of Connect routes to
that single registered factory (it is exactly one call of that factory). -/
theorem singleton_selection_deterministic (n : String) (c : Option F) (f : F)
    (env : ConnectEnv F C) :
    (∀ k, (Balancer.mk [(n, c)]).randomConnector k = .ok c) ∧
      (∀ i, (Balancer.mk [(n, some f)]).attempt env i
        = attemptResult (env.connect i f)) :=
  ⟨fun k => randomConnector_singleton n c k, fun i => attempt_singleton n f env i⟩

/-- Claim C5: starting from a freshly constructed balancer, after any
sequence of Add and Remove operations the names listed by ConnectorNames are
exactly those added and not subsequently removed, each occurring exactly
once. -/
theorem connectorNames_added_minus_removed (ops : List (RegOp F)) (n : String) :
    (((NewBalancer (F := F)).applyOps ops).ConnectorNames).count n
      = if presentAfter false ops n then 1 else 0 := by
  have h := count_applyOps n ops NewBalancer (by rfl)
  simpa [NewBalancer, Balancer.hasName] using h

/-- Counterexample to claim C6: when the name is already registered, Add
followed by Remove of that name does not restore the previous Names() set —
the pre-existing entry is destroyed.  Before: the set contains "a"; after
Add("a")+Remove("a"): it does not. -/
theorem add_remove_residue_cex :
    ("a" ∈ ((NewBalancer (F := Unit)).Add "a" none).ConnectorNames) ∧
      ¬ ("a" ∈ ((((NewBalancer (F := Unit)).Add "a" none).Add "a" none).Remove
        "a").ConnectorNames) := by
  decide

/-- Claim C6 as amended: for every registry state not already containing an
entry for the name, Add(name, factory) immediately followed by Remove(name)
leaves the list returned by Names() equal to what it was before the Add (no
residue). -/
theorem add_remove_no_residue (b : Balancer F) (n : String) (c : Option F)
    (h : b.hasName n = false) :
    ((b.Add n c).Remove n).ConnectorNames = b.ConnectorNames := by
  have hall : ∀ p ∈ b.connectors, (!(p.1 == n)) = true := by
    intro p hp
    rcases hbe : (p.1 == n) with _ | _
    · simp
    · exfalso
      have hany : b.connectors.any (fun p => p.1 == n) = true :=
        List.any_eq_true.mpr ⟨p, hp, hbe⟩
      rw [Balancer.hasName, hany] at h
      exact Bool.true_eq_false.mp h
  have hfl : b.connectors.filter (fun p => !(p.1 == n)) = b.connectors :=
    List.filter_eq_self.mpr hall
  have h2 : ((b.Add n c).Remove n).connectors = b.connectors := by
    simp only [Balancer.Add, Balancer.Remove]
    rw [hfl, List.filter_cons]
    simp [hfl]
  simp [Balancer.ConnectorNames, h2]

/-- Witness for amended C6: a registry holding only "b"; adding and removing
"a" leaves Names() unchanged. -/
theorem add_remove_no_residue_witness :
    ((((NewBalancer (F := Unit)).Add "b" (some ())).Add "a" none).Remove
      "a").ConnectorNames = ((NewBalancer (F := Unit)).Add "b" (some
      ())).ConnectorNames :=
  add_remove_no_residue ((NewBalancer (F := Unit)).Add "b" (some ())) "a" none
    (by decide)

/-- Claim C7: for every registry already containing an entry for the name,
Add with that same name overwrites the existing entry (the stored connector
becomes the new one) and does not duplicate it: the length of the Names()
list does not increase. -/
theorem add_existing_overwrites (b : Balancer F) (n : String) (c : Option F)
    (h : b.hasName n = true) :
    (b.Add n c).lookup n = some c ∧
      ((b.Add n c).ConnectorNames).length ≤ (b.ConnectorNames).length := by
  constructor
  · simp [Balancer.Add, Balancer.lookup, List.find?_cons]
  · have hlt : (b.connectors.filter (fun p => !(p.1 == n))).length
        < b.connectors.length := by
      rw [List.length_filter_lt_length_iff_exists]
      rw [Balancer.hasName] at h
      obtain ⟨p, hp, hpn⟩ := List.any_eq_true.mp h
      exact ⟨p, hp, by simp [hpn]⟩
    simp only [Balancer.Add, Balancer.ConnectorNames, List.map_cons,
      List.length_cons, List.length_map]
    omega

/-- Witness for C7: re-adding "a" to a registry already holding "a" keeps
the stored value fresh and the name list at length one. -/
theorem add_existing_overwrites_witness :
    (((NewBalancer (F := Unit)).Add "a" none).Add "a" (some ())).lookup "a"
        = some (some ()) ∧
      ((((NewBalancer (F := Unit)).Add "a" none).Add "a"
        (some ())).ConnectorNames).length
        ≤ (((NewBalancer (F := Unit)).Add "a" none).ConnectorNames).length :=
  add_existing_overwrites ((NewBalancer (F := Unit)).Add "a" none) "a"
    (some ()) (by decide)

/-- Counterexample to claim C8: a registered (non-nil) factory that returns
the Go pair (nil, nil) makes Connect terminate with neither a non-nil error
nor a usable (non-nil) connection: the success path hands back the factory's
nil connection. -/
theorem connect_neither_conn_nor_error_cex :
    (Balancer.mk [("foo", some ())]).Connect envNilNil 0 = .ok none ∧
      ¬ ((∃ e, (Balancer.mk [("foo", some ())]).Connect envNilNil 0 = .fail e)
        ∨ (∃ conn, (Balancer.mk [("foo", some ())]).Connect envNilNil 0
            = .ok (some conn))) := by
  have h1 : (Balancer.mk [("foo", some ())]).Connect envNilNil 0
      = .ok none := by
    rw [Balancer.Connect, retryLoop_eq, attempt_singleton]
    rfl
  refine ⟨h1, ?_⟩
  rw [h1]
  rintro (⟨e, he⟩ | ⟨conn, hconn⟩)
  · simp at he
  · simp at hconn

/-- Claim C8 as amended: every terminal path of Connect returns exactly one
of: an error (with no connection); a panic, which happens only when some
selected connector is nil; or success carrying exactly the connection value
the succeeding factory returned — which is nil only if the factory returned a
nil connection alongside its nil error. -/
theorem connect_terminal_paths (b : Balancer F) (env : ConnectEnv F C)
    (fuel : Nat) :
    (∃ e, b.Connect env fuel = .fail e) ∨
      (b.Connect env fuel = .panics ∧
        ∃ j, b.randomConnector (env.pick j) = .ok none) ∨
      (∃ j f conn, b.randomConnector (env.pick j) = .ok (some f) ∧
        env.connect j f = (conn, none) ∧ b.Connect env fuel = .ok conn) :=
  retryLoop_terminal b env fuel 0

/-- Counterexample to claim C9: selecting a registered nil connector does not
produce an error — invoking the connect method of a nil Go interface value is
a runtime panic, which crashes the program. -/
theorem nil_connector_panics_cex :
    (Balancer.mk [("bar", (none : Option Unit))]).Connect envNilNil 0
        = .panics ∧
      ¬ ∃ e, (Balancer.mk [("bar", (none : Option Unit))]).Connect envNilNil 0
          = .fail e := by
  have h1 : (Balancer.mk [("bar", (none : Option Unit))]).Connect envNilNil 0
      = .panics := by
    rw [Balancer.Connect, retryLoop_eq]
    rfl
  refine ⟨h1, ?_⟩
  rw [h1]
  rintro ⟨e, he⟩
  simp at he

/-- Claim C9 as amended: a nil factory is a legal registry entry — Add
accepts it without validation and the registry stores it — but when Connect
selects that entry the attempt panics (method call on a nil interface value),
for every environment and budget, rather than producing an error. -/
theorem add_nil_stored_and_panics_on_use (b : Balancer F) (name : String)
    (env : ConnectEnv F C) (fuel : Nat) :
    (b.Add name none).lookup name = some none ∧
      (Balancer.mk [(name, (none : Option F))]).Connect env fuel = .panics := by
  constructor
  · simp [Balancer.Add, Balancer.lookup, List.find?_cons]
  · rw [Balancer.Connect, retryLoop_eq]
    have ha : (Balancer.mk [(name, (none : Option F))]).attempt env 0
        = .panics := by
      simp [Balancer.attempt, randomConnector_singleton]
    rw [ha]

/-- Claim C10: Add and Remove each modify at most the registry entry for the
given name — for every other name, both the presence and the stored connector
of that name's entry are unchanged (its map lookup is identical). -/
theorem add_remove_frame (b : Balancer F) (n m : String) (c : Option F)
    (h : m ≠ n) :
    (b.Add n c).lookup m = b.lookup m ∧ (b.Remove n).lookup m = b.lookup m := by
  constructor
  · have hne : ((n, c).1 == m) = false := by simp [Ne.symm h]
    simp only [Balancer.Add, Balancer.lookup, List.find?_cons, hne]
    rw [find_key_filter_ne h]
  · simp only [Balancer.Remove, Balancer.lookup]
    rw [find_key_filter_ne h]

/-- Witness for C10: mutating "a" leaves the entry for "b" untouched. -/
theorem add_remove_frame_witness :
    ((((NewBalancer (F := Unit)).Add "b" (some ())).Add "a" none).lookup "b"
        = ((NewBalancer (F := Unit)).Add "b" (some ())).lookup "b") ∧
      ((((NewBalancer (F := Unit)).Add "b" (some ())).Remove "a").lookup "b"
        = ((NewBalancer (F := Unit)).Add "b" (some ())).lookup "b") :=
  add_remove_frame ((NewBalancer (F := Unit)).Add "b" (some ())) "a" "b" none
    (by decide)

end Claims

end Lbsql
